import Mathlib

/-!
Shallow embedding of the ARR dashboard pipeline
(`saas_data_engineering.py`, `app.py`, `data_validation_checker.py`).

Dates are proleptic-Gregorian calendar dates (all timestamps in the
pipeline are midnight datetimes, so date comparison is what the source
computes). Monetary amounts are rationals.
-/

namespace ARR

/-- A calendar date, as Python's `datetime` restricted to midnight. -/
structure Date where
  year : ℕ
  month : ℕ
  day : ℕ
deriving DecidableEq, Repr

/-- Gregorian leap-year rule, as used by Python's `datetime`. -/
def isLeap (y : ℕ) : Bool := y % 4 == 0 && (y % 100 != 0 || y % 400 == 0)

/-- Number of days in a calendar month. -/
def daysInMonth (y m : ℕ) : ℕ :=
  if m = 2 then (if isLeap y then 29 else 28)
  else if m = 4 ∨ m = 6 ∨ m = 9 ∨ m = 11 then 30
  else 31

/-- Advance a date by one day (`+ timedelta(days=1)`). -/
def nextDay (d : Date) : Date :=
  if d.day < daysInMonth d.year d.month then ⟨d.year, d.month, d.day + 1⟩
  else if d.month < 12 then ⟨d.year, d.month + 1, 1⟩
  else ⟨d.year + 1, 1, 1⟩

/-- Move a date back by one day (`- timedelta(days=1)`). -/
def prevDay (d : Date) : Date :=
  if 1 < d.day then ⟨d.year, d.month, d.day - 1⟩
  else if 1 < d.month then ⟨d.year, d.month - 1, daysInMonth d.year (d.month - 1)⟩
  else ⟨d.year - 1, 12, 31⟩

/-- Move a date back by `n` days (`- timedelta(days=n)`). -/
def subDays : ℕ → Date → Date
  | 0, d => d
  | n + 1, d => subDays n (prevDay d)

/-- The month-end computation of `step4_arr_calculations`:
`month_date.replace(day=28) + timedelta(days=4)` followed by
`month_end - timedelta(days=month_end.day)`. -/
def monthEnd (y m : ℕ) : Date :=
  let e := nextDay (nextDay (nextDay (nextDay ⟨y, m, 28⟩)))
  subDays e.day e

/-- A transaction type from the ledger (`transaction_type` column). -/
inductive TType where
  | new
  | expansion
  | contraction
  | churn
deriving DecidableEq, Repr

/-- One row of `saas_transactions.csv` after `step2_data_cleaning`
(parsed date, numeric amount). -/
structure Transaction where
  tdate : Date
  ttype : TType
  amount : ℚ
deriving DecidableEq, Repr

/-- One row of `saas_subscriptions.csv` after `step2_data_cleaning`:
`end_date` is `none` when the CSV field is missing (NaT). -/
structure Subscription where
  start_date : Date
  end_date : Option Date
  arr_amount : ℚ
deriving DecidableEq, Repr

/-- Chronological strict order on dates (Python datetime `<`). -/
def dlt (a b : Date) : Bool :=
  decide (a.year < b.year ∨ (a.year = b.year ∧
    (a.month < b.month ∨ (a.month = b.month ∧ a.day < b.day))))

/-- Chronological order on dates (Python datetime `<=`). -/
def dle (a b : Date) : Bool :=
  decide (a.year < b.year ∨ (a.year = b.year ∧
    (a.month < b.month ∨ (a.month = b.month ∧ a.day ≤ b.day))))

theorem daysInMonth_ge (y m : ℕ) : 28 ≤ daysInMonth y m := by
  unfold daysInMonth
  split
  · split <;> norm_num
  · split <;> norm_num

theorem monthEnd_of_31 (y m : ℕ) (hm : 1 ≤ m) (h12 : m < 12)
    (h31 : daysInMonth y m = 31) : monthEnd y m = ⟨y, m, 31⟩ := by
  have e1 : nextDay ⟨y, m, 28⟩ = ⟨y, m, 29⟩ := by norm_num [nextDay, h31]
  have e2 : nextDay ⟨y, m, 29⟩ = ⟨y, m, 30⟩ := by norm_num [nextDay, h31]
  have e3 : nextDay ⟨y, m, 30⟩ = ⟨y, m, 31⟩ := by norm_num [nextDay, h31]
  have e4 : nextDay ⟨y, m, 31⟩ = ⟨y, m + 1, 1⟩ := by norm_num [nextDay, h31, h12]
  rw [monthEnd, e1, e2, e3, e4]
  norm_num [subDays, prevDay, Nat.lt_of_lt_of_le Nat.zero_lt_one hm, h31]

theorem monthEnd_of_30 (y m : ℕ) (hm : 1 ≤ m) (h12 : m < 12)
    (h30 : daysInMonth y m = 30) : monthEnd y m = ⟨y, m, 30⟩ := by
  have hnext : (1 : ℕ) < daysInMonth y (m + 1) :=
    Nat.lt_of_lt_of_le (by norm_num) (daysInMonth_ge y (m + 1))
  have e1 : nextDay ⟨y, m, 28⟩ = ⟨y, m, 29⟩ := by norm_num [nextDay, h30]
  have e2 : nextDay ⟨y, m, 29⟩ = ⟨y, m, 30⟩ := by norm_num [nextDay, h30]
  have e3 : nextDay ⟨y, m, 30⟩ = ⟨y, m + 1, 1⟩ := by norm_num [nextDay, h30, h12]
  have e4 : nextDay ⟨y, m + 1, 1⟩ = ⟨y, m + 1, 2⟩ := by norm_num [nextDay, hnext]
  rw [monthEnd, e1, e2, e3, e4]
  norm_num [subDays, prevDay, Nat.lt_of_lt_of_le Nat.zero_lt_one hm, h30]

theorem monthEnd_of_29 (y m : ℕ) (hm : 1 ≤ m) (h12 : m < 12)
    (h29 : daysInMonth y m = 29) : monthEnd y m = ⟨y, m, 29⟩ := by
  have hn1 : (1 : ℕ) < daysInMonth y (m + 1) :=
    Nat.lt_of_lt_of_le (by norm_num) (daysInMonth_ge y (m + 1))
  have hn2 : (2 : ℕ) < daysInMonth y (m + 1) :=
    Nat.lt_of_lt_of_le (by norm_num) (daysInMonth_ge y (m + 1))
  have e1 : nextDay ⟨y, m, 28⟩ = ⟨y, m, 29⟩ := by norm_num [nextDay, h29]
  have e2 : nextDay ⟨y, m, 29⟩ = ⟨y, m + 1, 1⟩ := by norm_num [nextDay, h29, h12]
  have e3 : nextDay ⟨y, m + 1, 1⟩ = ⟨y, m + 1, 2⟩ := by norm_num [nextDay, hn1]
  have e4 : nextDay ⟨y, m + 1, 2⟩ = ⟨y, m + 1, 3⟩ := by norm_num [nextDay, hn2]
  rw [monthEnd, e1, e2, e3, e4]
  norm_num [subDays, prevDay, Nat.lt_of_lt_of_le Nat.zero_lt_one hm, h29]

theorem monthEnd_of_28 (y m : ℕ) (hm : 1 ≤ m) (h12 : m < 12)
    (h28 : daysInMonth y m = 28) : monthEnd y m = ⟨y, m, 28⟩ := by
  have hn1 : (1 : ℕ) < daysInMonth y (m + 1) :=
    Nat.lt_of_lt_of_le (by norm_num) (daysInMonth_ge y (m + 1))
  have hn2 : (2 : ℕ) < daysInMonth y (m + 1) :=
    Nat.lt_of_lt_of_le (by norm_num) (daysInMonth_ge y (m + 1))
  have hn3 : (3 : ℕ) < daysInMonth y (m + 1) :=
    Nat.lt_of_lt_of_le (by norm_num) (daysInMonth_ge y (m + 1))
  have e1 : nextDay ⟨y, m, 28⟩ = ⟨y, m + 1, 1⟩ := by norm_num [nextDay, h28, h12]
  have e2 : nextDay ⟨y, m + 1, 1⟩ = ⟨y, m + 1, 2⟩ := by norm_num [nextDay, hn1]
  have e3 : nextDay ⟨y, m + 1, 2⟩ = ⟨y, m + 1, 3⟩ := by norm_num [nextDay, hn2]
  have e4 : nextDay ⟨y, m + 1, 3⟩ = ⟨y, m + 1, 4⟩ := by norm_num [nextDay, hn3]
  rw [monthEnd, e1, e2, e3, e4]
  norm_num [subDays, prevDay, Nat.lt_of_lt_of_le Nat.zero_lt_one hm, h28]

theorem monthEnd_dec (y : ℕ) : monthEnd y 12 = ⟨y, 12, 31⟩ := by
  have e1 : nextDay ⟨y, 12, 28⟩ = ⟨y, 12, 29⟩ := by norm_num [nextDay, daysInMonth]
  have e2 : nextDay ⟨y, 12, 29⟩ = ⟨y, 12, 30⟩ := by norm_num [nextDay, daysInMonth]
  have e3 : nextDay ⟨y, 12, 30⟩ = ⟨y, 12, 31⟩ := by norm_num [nextDay, daysInMonth]
  have e4 : nextDay ⟨y, 12, 31⟩ = ⟨y + 1, 1, 1⟩ := by norm_num [nextDay, daysInMonth]
  rw [monthEnd, e1, e2, e3, e4]
  norm_num [subDays, prevDay]

/-- `annualized_amount` of `step3_feature_engineering`: `amount * 12` for
new/expansion/contraction, `abs(amount) * 12` otherwise (churn). -/
def annualized (t : Transaction) : ℚ :=
  if t.ttype = .new ∨ t.ttype = .expansion ∨ t.ttype = .contraction then
    t.amount * 12
  else |t.amount| * 12

/-- The `year_month` key of a transaction (`strftime` of year and month). -/
def ymOf (t : Transaction) : ℕ × ℕ := (t.tdate.year, t.tdate.month)

/-- Lexicographic order on `year_month` keys: the order `sorted` uses on
zero-padded `%Y-%m` strings. -/
def mLe (a b : ℕ × ℕ) : Bool :=
  decide (a.1 < b.1 ∨ (a.1 = b.1 ∧ a.2 ≤ b.2))

/-- Ordered insertion of a month key into a sorted list. -/
def insertMonth (m : ℕ × ℕ) : List (ℕ × ℕ) → List (ℕ × ℕ)
  | [] => [m]
  | x :: xs => if mLe m x then m :: x :: xs else x :: insertMonth m xs

/-- Insertion sort of month keys (the `sorted(...)` call of step 4). -/
def sortMonths : List (ℕ × ℕ) → List (ℕ × ℕ)
  | [] => []
  | x :: xs => insertMonth x (sortMonths xs)

/-- `all_months = sorted(transactions_df['year_month'].unique())`. -/
def allMonths (ts : List Transaction) : List (ℕ × ℕ) :=
  sortMonths ((ts.map ymOf).dedup)

/-- The activity predicate of `step4_arr_calculations` (and, with the
current date, of `step3_feature_engineering`): started on or before `d`,
and either no end date or an end date strictly after `d`. -/
def isActiveAt (s : Subscription) (d : Date) : Bool :=
  dle s.start_date d &&
    (match s.end_date with
     | none => true
     | some e => dlt d e)

/-- `active_subs_month`: the subscriptions active at `d`. -/
def activeSubs (subs : List Subscription) (d : Date) : List Subscription :=
  subs.filter (fun s => isActiveAt s d)

/-- `month_arr`: point-in-time snapshot ARR, the sum of `arr_amount`
over subscriptions active at `d`. -/
def pointInTimeArr (subs : List Subscription) (d : Date) : ℚ :=
  ((activeSubs subs d).map Subscription.arr_amount).sum

/-- `month_transactions`: the transactions falling in month `m`. -/
def monthTxns (ts : List Transaction) (m : ℕ × ℕ) : List Transaction :=
  ts.filter (fun t => ymOf t == m)

/-- Sum of `annualized_amount` over the month-`m` transactions of one type. -/
def typeSum (ts : List Transaction) (m : ℕ × ℕ) (c : TType) : ℚ :=
  (((monthTxns ts m).filter (fun t => t.ttype == c)).map annualized).sum

/-- One row of the `arr_summary_df` monthly table built in step 4. -/
structure MSRow where
  month : ℕ × ℕ
  month_date : Date
  new_arr : ℚ
  expansion_arr : ℚ
  contraction_arr : ℚ
  churned_arr : ℚ
  net_new_arr : ℚ
  current_arr : ℚ
  active_customers : ℕ
  arr_per_customer : ℚ
deriving DecidableEq, Repr

/-- Default row (used only as the out-of-range default of list indexing). -/
def defRow : MSRow := ⟨(0, 0), ⟨0, 0, 0⟩, 0, 0, 0, 0, 0, 0, 0, 0⟩

/-- The dictionary appended to `monthly_arr_data` for month `m`. -/
def msRow (subs : List Subscription) (ts : List Transaction)
    (m : ℕ × ℕ) : MSRow :=
  let dEnd := monthEnd m.1 m.2
  let na := typeSum ts m .new
  let ea := typeSum ts m .expansion
  let ca := typeSum ts m .contraction
  let ha := typeSum ts m .churn
  let act := activeSubs subs dEnd
  { month := m
    month_date := dEnd
    new_arr := na
    expansion_arr := ea
    contraction_arr := ca
    churned_arr := ha
    net_new_arr := na + ea - ca - ha
    current_arr := pointInTimeArr subs dEnd
    active_customers := act.length
    arr_per_customer :=
      if 0 < act.length then pointInTimeArr subs dEnd / (act.length : ℚ) else 0 }

/-- `arr_summary_df`: one row per month of `all_months`, in order. -/
def monthlySummary (subs : List Subscription) (ts : List Transaction) :
    List MSRow :=
  (allMonths ts).map (msRow subs ts)

/-- An IEEE-style scalar as pandas holds it: a finite rational, NaN
(missing value), or a signed infinity. -/
inductive FVal where
  | num (q : ℚ)
  | nan
  | pinf
  | ninf
deriving DecidableEq, Repr

/-- Subtraction with NaN/inf propagation (pandas column arithmetic). -/
def FVal.sub : FVal → FVal → FVal
  | num a, num b => num (a - b)
  | num _, pinf => ninf
  | num _, ninf => pinf
  | pinf, num _ => pinf
  | ninf, num _ => ninf
  | pinf, ninf => pinf
  | ninf, pinf => ninf
  | _, _ => nan

/-- Division with IEEE semantics: finite/0 gives a signed infinity
(or NaN for 0/0); NaN propagates. -/
def FVal.div : FVal → FVal → FVal
  | num a, num b =>
      if b = 0 then (if a = 0 then nan else if 0 < a then pinf else ninf)
      else num (a / b)
  | num _, pinf => num 0
  | num _, ninf => num 0
  | pinf, num b => if b < 0 then ninf else pinf
  | ninf, num b => if b < 0 then pinf else ninf
  | _, _ => nan

/-- Multiplication by the positive constant 100. -/
def FVal.mul100 : FVal → FVal
  | num a => num (a * 100)
  | nan => nan
  | pinf => pinf
  | ninf => ninf

/-- numpy round-half-to-even at two decimal places, on exact rationals. -/
def rnd2 (q : ℚ) : ℚ :=
  let x := q * 100
  let f := ⌊x⌋
  let r := x - f
  let n := if r < 1 / 2 then f else if 1 / 2 < r then f + 1
           else (if 2 ∣ f then f else f + 1)
  (n : ℚ) / 100

/-- `.round(2)` leaves NaN and infinities untouched. -/
def round2F : FVal → FVal
  | .num a => .num (rnd2 a)
  | v => v

/-- The `arr_growth_rate` column: `previous_arr` is the shifted
`current_arr` (NaN on the first row), and the rate is
`(arr_growth_amount / previous_arr * 100).round(2)`. -/
def growthRates (rows : List MSRow) : List FVal :=
  (List.range rows.length).map (fun i =>
    let prev : FVal :=
      if i = 0 then .nan else .num (rows.getD (i - 1) defRow).current_arr
    round2F (FVal.mul100
      (FVal.div (FVal.sub (.num ((rows.getD i defRow).current_arr)) prev) prev)))

/-- One row of `arr_rollforward_df` (the bridge chain). -/
structure BridgeRecord where
  month : ℕ × ℕ
  starting_arr : ℚ
  new_arr : ℚ
  expansion_arr : ℚ
  contraction_arr : ℚ
  churned_arr : ℚ
  ending_arr : ℚ
  net_change : ℚ
  growth_rate : FVal
deriving DecidableEq, Repr

/-- Default bridge record (out-of-range default of list indexing). -/
def defBridge : BridgeRecord := ⟨(0, 0), 0, 0, 0, 0, 0, 0, 0, .nan⟩

/-- The rollforward loop of step 4: `starting_arr` is 0 on the first row
and the previous row's `current_arr` otherwise; contraction and churn are
negated for the waterfall; `ending_arr` is the snapshot `current_arr`;
`net_change` is the summary's `net_new_arr`. -/
def rollforwardOf (rows : List MSRow) : List BridgeRecord :=
  (List.range rows.length).map (fun i =>
    let r := rows.getD i defRow
    { month := r.month
      starting_arr := if i = 0 then 0 else (rows.getD (i - 1) defRow).current_arr
      new_arr := r.new_arr
      expansion_arr := r.expansion_arr
      contraction_arr := -r.contraction_arr
      churned_arr := -r.churned_arr
      ending_arr := r.current_arr
      net_change := r.net_new_arr
      growth_rate := (growthRates rows).getD i .nan })

/-- `arr_rollforward_df` as produced by `step4_arr_calculations`. -/
def arrRollforward (subs : List Subscription) (ts : List Transaction) :
    List BridgeRecord :=
  rollforwardOf (monthlySummary subs ts)

/-- `calculated_ending` of `step6_data_validation` (and of
`validate_dashboard_data`): the bridge-arithmetic ending value. -/
def calcEnding (r : BridgeRecord) : ℚ :=
  r.starting_arr + r.new_arr + r.expansion_arr + r.contraction_arr +
    r.churned_arr

/-- Whether step 6 emits its rollforward-math validation issue: it reads
`arr_rollforward_df.iloc[-1]` only and compares against the constant 100. -/
def rollforwardIssue (chain : List BridgeRecord) : Bool :=
  match chain.getLast? with
  | none => false
  | some r => decide (100 < |calcEnding r - r.ending_arr|)

/-- The customer segment labels of `pd.cut` in step 3. -/
inductive Segment where
  | SMB
  | MidMarket
  | Enterprise
  | Strategic
deriving DecidableEq, Repr

/-- `pd.cut(arr_amount, bins=[0, 600, 2400, 6000, inf], labels=...)`:
left-open right-closed bins; values outside every bin (arr ≤ 0) get no
label (`none`, pandas NaN). -/
def segmentOf (a : ℚ) : Option Segment :=
  if 0 < a ∧ a ≤ 600 then some .SMB
  else if 600 < a ∧ a ≤ 2400 then some .MidMarket
  else if 2400 < a ∧ a ≤ 6000 then some .Enterprise
  else if 6000 < a then some .Strategic
  else none

/-- Total ARR of one segment group in `get_segments` (`app.py`): active
subscriptions grouped by `customer_segment`; pandas `groupby` drops the
NaN (unlabelled) group. -/
def segArr (subs : List Subscription) (asOf : Date) (s : Segment) : ℚ :=
  ((subs.filter (fun sub =>
      isActiveAt sub asOf && (segmentOf sub.arr_amount == some s))).map
    Subscription.arr_amount).sum

/-- Customer count of one segment group in `get_segments`. -/
def segCount (subs : List Subscription) (asOf : Date) (s : Segment) : ℕ :=
  (subs.filter (fun sub =>
      isActiveAt sub asOf && (segmentOf sub.arr_amount == some s))).length

/-- Demo dataset: one open subscription of 1200 ARR started mid-January. -/
def demoSubs : List Subscription := [⟨⟨2024, 1, 15⟩, none, 1200⟩]

/-- Demo ledger: two new-business transactions in consecutive months. -/
def demoTs : List Transaction :=
  [⟨⟨2024, 1, 10⟩, .new, 100⟩, ⟨⟨2024, 2, 10⟩, .new, 50⟩]

/-- A single-month ledger with one new-business transaction. -/
def oneTxn : List Transaction := [⟨⟨2024, 1, 10⟩, .new, 100⟩]

/-- A ledger whose transactions skip February entirely. -/
def gapTs : List Transaction :=
  [⟨⟨2024, 1, 5⟩, .new, 10⟩, ⟨⟨2024, 3, 5⟩, .new, 10⟩]

/-- A ledger recording a contraction as a negative amount. -/
def negContractionTs : List Transaction :=
  [⟨⟨2024, 1, 10⟩, .contraction, -10⟩]

/-- A ledger whose first month drifts from the snapshot while the last
month reconciles. -/
def driftTs : List Transaction :=
  [⟨⟨2024, 1, 10⟩, .new, 100⟩, ⟨⟨2024, 2, 10⟩, .new, 0⟩]

/-- A subscription set holding one open record with negative ARR. -/
def negArrSubs : List Subscription := [⟨⟨2024, 1, 1⟩, none, -100⟩]

/-- A one-month ledger with a zero-amount transaction. -/
def zeroAmtTs : List Transaction := [⟨⟨2024, 1, 5⟩, .new, 0⟩]

/-- The `replace(day=28) + timedelta(days=4)` / subtract-day trick of
`step4_arr_calculations` lands on the true last calendar day of the month. -/
theorem monthEnd_eq_lastDay (y m : ℕ) (h1 : 1 ≤ m) (h2 : m ≤ 12) :
    monthEnd y m = ⟨y, m, daysInMonth y m⟩ := by
  interval_cases m
  · exact monthEnd_of_31 y 1 (by norm_num) (by norm_num) (by norm_num [daysInMonth])
  · cases h : isLeap y
    · rw [show daysInMonth y 2 = 28 by norm_num [daysInMonth, h]]
      exact monthEnd_of_28 y 2 (by norm_num) (by norm_num) (by norm_num [daysInMonth, h])
    · rw [show daysInMonth y 2 = 29 by norm_num [daysInMonth, h]]
      exact monthEnd_of_29 y 2 (by norm_num) (by norm_num) (by norm_num [daysInMonth, h])
  · exact monthEnd_of_31 y 3 (by norm_num) (by norm_num) (by norm_num [daysInMonth])
  · exact monthEnd_of_30 y 4 (by norm_num) (by norm_num) (by norm_num [daysInMonth])
  · exact monthEnd_of_31 y 5 (by norm_num) (by norm_num) (by norm_num [daysInMonth])
  · exact monthEnd_of_30 y 6 (by norm_num) (by norm_num) (by norm_num [daysInMonth])
  · exact monthEnd_of_31 y 7 (by norm_num) (by norm_num) (by norm_num [daysInMonth])
  · exact monthEnd_of_31 y 8 (by norm_num) (by norm_num) (by norm_num [daysInMonth])
  · exact monthEnd_of_30 y 9 (by norm_num) (by norm_num) (by norm_num [daysInMonth])
  · exact monthEnd_of_31 y 10 (by norm_num) (by norm_num) (by norm_num [daysInMonth])
  · exact monthEnd_of_30 y 11 (by norm_num) (by norm_num) (by norm_num [daysInMonth])
  · exact monthEnd_dec y

theorem getD_map_range {α : Type} (f : ℕ → α) (n i : ℕ) (d : α)
    (h : i < n) : ((List.range n).map f).getD i d = f i := by
  rw [List.getD_eq_getElem _ _ (by simpa using h)]
  simp

theorem length_rollforwardOf (rows : List MSRow) :
    (rollforwardOf rows).length = rows.length := by
  simp [rollforwardOf]

theorem rollforwardOf_getD (rows : List MSRow) (i : ℕ)
    (h : i < rows.length) :
    (rollforwardOf rows).getD i defBridge =
      { month := (rows.getD i defRow).month
        starting_arr :=
          if i = 0 then 0 else (rows.getD (i - 1) defRow).current_arr
        new_arr := (rows.getD i defRow).new_arr
        expansion_arr := (rows.getD i defRow).expansion_arr
        contraction_arr := -(rows.getD i defRow).contraction_arr
        churned_arr := -(rows.getD i defRow).churned_arr
        ending_arr := (rows.getD i defRow).current_arr
        net_change := (rows.getD i defRow).net_new_arr
        growth_rate := (growthRates rows).getD i .nan } := by
  rw [rollforwardOf, getD_map_range _ _ _ _ h]

theorem length_monthlySummary (subs : List Subscription)
    (ts : List Transaction) :
    (monthlySummary subs ts).length = (allMonths ts).length := by
  simp [monthlySummary]

theorem monthlySummary_getD (subs : List Subscription)
    (ts : List Transaction) (i : ℕ) (h : i < (allMonths ts).length) :
    (monthlySummary subs ts).getD i defRow =
      msRow subs ts ((allMonths ts).getD i (0, 0)) := by
  rw [monthlySummary,
    List.getD_eq_getElem _ _ (by simpa using h),
    List.getD_eq_getElem _ _ h, List.getElem_map]

/-- Claim C1: in the rollforward chain the first record starts at 0, each
later record starts at the previous record's ending ARR, and each record's
ending ARR is the independently computed point-in-time snapshot for the
record's month (not bridge arithmetic). -/
theorem claim_C1 (subs : List Subscription) (ts : List Transaction) :
    (0 < (arrRollforward subs ts).length →
      ((arrRollforward subs ts).getD 0 defBridge).starting_arr = 0) ∧
    (∀ i, i + 1 < (arrRollforward subs ts).length →
      ((arrRollforward subs ts).getD (i + 1) defBridge).starting_arr =
        ((arrRollforward subs ts).getD i defBridge).ending_arr) ∧
    (∀ i, i < (arrRollforward subs ts).length →
      ((arrRollforward subs ts).getD i defBridge).ending_arr =
        pointInTimeArr subs
          (monthEnd ((allMonths ts).getD i (0, 0)).1
            ((allMonths ts).getD i (0, 0)).2)) := by
  refine ⟨?_, ?_, ?_⟩
  · intro h0
    rw [arrRollforward] at h0 ⊢
    rw [length_rollforwardOf] at h0
    rw [rollforwardOf_getD _ _ h0]
    rfl
  · intro i hi
    rw [arrRollforward] at hi ⊢
    rw [length_rollforwardOf] at hi
    rw [rollforwardOf_getD _ _ hi,
      rollforwardOf_getD _ _ (Nat.lt_of_succ_lt hi)]
    simp
  · intro i hi
    rw [arrRollforward] at hi ⊢
    rw [length_rollforwardOf] at hi
    rw [rollforwardOf_getD _ _ hi]
    have hm : i < (allMonths ts).length := by
      rwa [length_monthlySummary] at hi
    rw [monthlySummary_getD subs ts i hm]
    rfl

/-- Claim C1 witness: on the demo dataset the second bridge record starts
at the first record's ending ARR. -/
theorem claim_C1_witness :
    ((arrRollforward demoSubs demoTs).getD 1 defBridge).starting_arr =
      ((arrRollforward demoSubs demoTs).getD 0 defBridge).ending_arr :=
  (claim_C1 demoSubs demoTs).2.1 0 (by decide)

/-- Claim C2 (amended): the step-6 validator examines only the final
bridge record, and compares its recomputed ending value against the
fixed absolute constant 100, independently of every earlier record. -/
theorem claim_C2_amended (chain : List BridgeRecord) (r : BridgeRecord) :
    rollforwardIssue (chain ++ [r]) =
      decide (100 < |calcEnding r - r.ending_arr|) := by
  rw [rollforwardIssue]
  rw [show (chain ++ [r]).getLast? = some r by simp]

/-- Claim C2 counterexample: a two-month chain whose first record drifts
by 1200 from its snapshot produces no rollforward validation issue,
because only the last record is ever checked. -/
theorem claim_C2_counterexample :
    (100 : ℚ) <
      |calcEnding ((arrRollforward [] driftTs).getD 0 defBridge) -
        ((arrRollforward [] driftTs).getD 0 defBridge).ending_arr| ∧
    rollforwardIssue (arrRollforward [] driftTs) = false := by
  have m1 : monthEnd 2024 1 = ⟨2024, 1, 31⟩ := by decide
  have m2 : monthEnd 2024 2 = ⟨2024, 2, 29⟩ := by decide
  have am : allMonths driftTs = [(2024, 1), (2024, 2)] := by
    norm_num [allMonths, driftTs, ymOf, sortMonths, insertMonth, mLe,
      List.dedup]
  have hs : monthlySummary [] driftTs =
      [⟨(2024, 1), ⟨2024, 1, 31⟩, 1200, 0, 0, 0, 1200, 0, 0, 0⟩,
       ⟨(2024, 2), ⟨2024, 2, 29⟩, 0, 0, 0, 0, 0, 0, 0, 0⟩] := by
    rw [monthlySummary, am]
    norm_num +decide [msRow, m1, m2, typeSum, monthTxns, annualized,
      activeSubs, pointInTimeArr, isActiveAt, dle, dlt, ymOf, driftTs]
  rw [arrRollforward, hs]
  norm_num +decide [rollforwardOf, growthRates, defRow, defBridge,
    List.range_succ, FVal.sub, FVal.div, FVal.mul100, round2F, rnd2,
    rollforwardIssue, calcEnding]

theorem dlt_self_eq_false (d : Date) : dlt d d = false := by
  simp [dlt]

/-- Claim C3: the queried month-end is the true last calendar day of the
month, a subscription is active there iff it started on or before it and
has no end date or an end date strictly after it, and a subscription
ending exactly at the month-end is excluded and contributes nothing to
that month's point-in-time ARR. -/
theorem claim_C3 (y m : ℕ) (h1 : 1 ≤ m) (h2 : m ≤ 12)
    (sub : Subscription) (subs : List Subscription) :
    monthEnd y m = ⟨y, m, daysInMonth y m⟩ ∧
    (isActiveAt sub (monthEnd y m) = true ↔
      (dle sub.start_date (monthEnd y m) = true ∧
        (sub.end_date = none ∨
          ∃ e, sub.end_date = some e ∧ dlt (monthEnd y m) e = true))) ∧
    (sub.end_date = some (monthEnd y m) →
      isActiveAt sub (monthEnd y m) = false ∧
      pointInTimeArr (sub :: subs) (monthEnd y m) =
        pointInTimeArr subs (monthEnd y m)) := by
  refine ⟨monthEnd_eq_lastDay y m h1 h2, ?_, ?_⟩
  · rw [isActiveAt]
    cases he : sub.end_date with
    | none => simp
    | some e => simp [Bool.and_eq_true]
  · intro he
    have hact : isActiveAt sub (monthEnd y m) = false := by
      rw [isActiveAt, he]
      simp [dlt_self_eq_false]
    refine ⟨hact, ?_⟩
    rw [pointInTimeArr, pointInTimeArr, activeSubs, activeSubs,
      List.filter_cons_of_neg (by simp [hact])]

/-- Claim C3 witness: a subscription ending exactly on 2024-02-29 is not
active at the February 2024 month-end. -/
theorem claim_C3_witness :
    isActiveAt ⟨⟨2024, 1, 1⟩, some ⟨2024, 2, 29⟩, 500⟩ (monthEnd 2024 2) =
      false :=
  ((claim_C3 2024 2 (by norm_num) (by norm_num)
      ⟨⟨2024, 1, 1⟩, some ⟨2024, 2, 29⟩, 500⟩ []).2.2 (by decide)).1

theorem typeSum_churn_nonneg (ts : List Transaction) (m : ℕ × ℕ) :
    0 ≤ typeSum ts m .churn := by
  rw [typeSum]
  apply List.sum_nonneg
  intro a ha
  rw [List.mem_map] at ha
  obtain ⟨t, ht, rfl⟩ := ha
  rw [List.mem_filter] at ht
  have hc : t.ttype = .churn := by
    have := ht.2
    simpa using this
  rw [annualized, if_neg (by simp [hc])]
  positivity

theorem typeSum_contraction_nonneg (ts : List Transaction) (m : ℕ × ℕ)
    (hpos : ∀ t ∈ ts, t.ttype = TType.contraction → 0 ≤ t.amount) :
    0 ≤ typeSum ts m .contraction := by
  rw [typeSum]
  apply List.sum_nonneg
  intro a ha
  rw [List.mem_map] at ha
  obtain ⟨t, ht, rfl⟩ := ha
  rw [List.mem_filter] at ht
  have hc : t.ttype = .contraction := by
    have := ht.2
    simpa using this
  have hmem : t ∈ ts := by
    have := ht.1
    rw [monthTxns, List.mem_filter] at this
    exact this.1
  rw [annualized, if_pos (by simp [hc])]
  have := hpos t hmem hc
  positivity

theorem mem_arrRollforward (subs : List Subscription)
    (ts : List Transaction) (r : BridgeRecord)
    (hr : r ∈ arrRollforward subs ts) :
    ∃ i < (monthlySummary subs ts).length,
      r = (rollforwardOf (monthlySummary subs ts)).getD i defBridge := by
  rw [arrRollforward, rollforwardOf, List.mem_map] at hr
  obtain ⟨i, hi, hf⟩ := hr
  rw [List.mem_range] at hi
  refine ⟨i, hi, ?_⟩
  rw [rollforwardOf, getD_map_range _ _ _ _ hi, ← hf]

/-- Claim C4 (amended): every bridge record stores `churned_arr` as a
non-positive value, and stores `contraction_arr` as a non-positive value
provided the ledger records contraction amounts as non-negative
magnitudes; a ledger recording contractions as negative values yields a
positive stored `contraction_arr`. -/
theorem claim_C4_amended (subs : List Subscription) (ts : List Transaction)
    (r : BridgeRecord) (hr : r ∈ arrRollforward subs ts) :
    r.churned_arr ≤ 0 ∧
    ((∀ t ∈ ts, t.ttype = TType.contraction → 0 ≤ t.amount) →
      r.contraction_arr ≤ 0) := by
  obtain ⟨i, hi, rfl⟩ := mem_arrRollforward subs ts r hr
  rw [rollforwardOf_getD _ _ hi]
  have hm : i < (allMonths ts).length := by
    rwa [length_monthlySummary] at hi
  rw [monthlySummary_getD subs ts i hm]
  constructor
  · show -(msRow subs ts _).churned_arr ≤ 0
    have h := typeSum_churn_nonneg ts ((allMonths ts).getD i (0, 0))
    show -typeSum ts ((allMonths ts).getD i (0, 0)) .churn ≤ 0
    linarith
  · intro hpos
    show -(msRow subs ts _).contraction_arr ≤ 0
    have h := typeSum_contraction_nonneg ts ((allMonths ts).getD i (0, 0)) hpos
    show -typeSum ts ((allMonths ts).getD i (0, 0)) .contraction ≤ 0
    linarith

/-- Claim C4 counterexample: a ledger recording a contraction of −10
yields a stored `contraction_arr` of +120 in the bridge record, violating
the claimed sign invariant. -/
theorem claim_C4_counterexample :
    (0 : ℚ) <
      ((arrRollforward [] negContractionTs).getD 0 defBridge).contraction_arr := by
  have m1 : monthEnd 2024 1 = ⟨2024, 1, 31⟩ := by decide
  have am : allMonths negContractionTs = [(2024, 1)] := by
    norm_num [allMonths, negContractionTs, ymOf, sortMonths, insertMonth,
      mLe, List.dedup]
  have hs : monthlySummary [] negContractionTs =
      [⟨(2024, 1), ⟨2024, 1, 31⟩, 0, 0, -120, 0, 120, 0, 0, 0⟩] := by
    rw [monthlySummary, am]
    norm_num +decide [msRow, m1, typeSum, monthTxns, annualized,
      activeSubs, pointInTimeArr, isActiveAt, dle, dlt, ymOf,
      negContractionTs]
  rw [arrRollforward, hs]
  norm_num +decide [rollforwardOf, growthRates, defRow, defBridge,
    List.range_succ, FVal.sub, FVal.div, FVal.mul100, round2F, rnd2]

/-- Claim C4 witness: on a positive-magnitude ledger both stored
reduction components of the first bridge record are non-positive. -/
theorem claim_C4_witness :
    ((arrRollforward [] oneTxn).getD 0 defBridge).churned_arr ≤ 0 ∧
    ((arrRollforward [] oneTxn).getD 0 defBridge).contraction_arr ≤ 0 := by
  have hr : (arrRollforward [] oneTxn).getD 0 defBridge ∈
      arrRollforward [] oneTxn := by
    rw [List.getD_eq_getElem _ _ (by decide)]
    exact List.getElem_mem _
  have h := claim_C4_amended [] oneTxn _ hr
  refine ⟨h.1, h.2 ?_⟩
  intro t ht hc
  rw [oneTxn, List.mem_singleton] at ht
  subst ht
  simp at hc

/-- Claim C5 (amended): `net_change` of every bridge record equals the
sum of the record's own transaction-derived components
`new_arr + expansion_arr + contraction_arr + churned_arr` (the summary's
`net_new_arr`), which need not equal `ending_arr - starting_arr`. -/
theorem claim_C5_amended (subs : List Subscription) (ts : List Transaction)
    (r : BridgeRecord) (hr : r ∈ arrRollforward subs ts) :
    r.net_change = r.new_arr + r.expansion_arr + r.contraction_arr +
      r.churned_arr := by
  obtain ⟨i, hi, rfl⟩ := mem_arrRollforward subs ts r hr
  rw [rollforwardOf_getD _ _ hi]
  have hm : i < (allMonths ts).length := by
    rwa [length_monthlySummary] at hi
  rw [monthlySummary_getD subs ts i hm]
  show (msRow subs ts _).net_new_arr = _
  rw [msRow]
  ring

/-- Claim C5 counterexample: a ledger month with 1200 of new ARR and no
matching subscription snapshot yields `net_change = 1200` while
`ending_arr - starting_arr = 0`. -/
theorem claim_C5_counterexample :
    ((arrRollforward [] oneTxn).getD 0 defBridge).net_change ≠
      ((arrRollforward [] oneTxn).getD 0 defBridge).ending_arr -
        ((arrRollforward [] oneTxn).getD 0 defBridge).starting_arr := by
  have m1 : monthEnd 2024 1 = ⟨2024, 1, 31⟩ := by decide
  have am : allMonths oneTxn = [(2024, 1)] := by
    norm_num [allMonths, oneTxn, ymOf, sortMonths, insertMonth, mLe,
      List.dedup]
  have hs : monthlySummary [] oneTxn =
      [⟨(2024, 1), ⟨2024, 1, 31⟩, 1200, 0, 0, 0, 1200, 0, 0, 0⟩] := by
    rw [monthlySummary, am]
    norm_num +decide [msRow, m1, typeSum, monthTxns, annualized,
      activeSubs, pointInTimeArr, isActiveAt, dle, dlt, ymOf, oneTxn]
  rw [arrRollforward, hs]
  norm_num +decide [rollforwardOf, growthRates, defRow, defBridge,
    List.range_succ, FVal.sub, FVal.div, FVal.mul100, round2F, rnd2]

/-- Claim C5 witness: the amended component identity holds on the first
record of the demo chain. -/
theorem claim_C5_witness :
    ((arrRollforward demoSubs demoTs).getD 0 defBridge).net_change =
      ((arrRollforward demoSubs demoTs).getD 0 defBridge).new_arr +
      ((arrRollforward demoSubs demoTs).getD 0 defBridge).expansion_arr +
      ((arrRollforward demoSubs demoTs).getD 0 defBridge).contraction_arr +
      ((arrRollforward demoSubs demoTs).getD 0 defBridge).churned_arr := by
  have hr : (arrRollforward demoSubs demoTs).getD 0 defBridge ∈
      arrRollforward demoSubs demoTs := by
    rw [List.getD_eq_getElem _ _ (by decide)]
    exact List.getElem_mem _
  exact claim_C5_amended demoSubs demoTs _ hr

/-- Claim C6 (amended): for a non-first bridge record with a non-zero
starting ARR, `growth_rate` is `100 * (ending_arr - starting_arr) /
starting_arr` rounded half-even to two decimals (the numerator is the
snapshot difference, not the stored `net_change`); the first record's
growth rate is the missing value NaN — there is no zero-with-flag
reporting and no "undefined — no baseline" flag anywhere. -/
theorem claim_C6_amended (subs : List Subscription) (ts : List Transaction)
    (i : ℕ) (hi : i + 1 < (arrRollforward subs ts).length) :
    (((arrRollforward subs ts).getD (i + 1) defBridge).starting_arr ≠ 0 →
      ((arrRollforward subs ts).getD (i + 1) defBridge).growth_rate =
        FVal.num (rnd2
          ((((arrRollforward subs ts).getD (i + 1) defBridge).ending_arr -
            ((arrRollforward subs ts).getD (i + 1) defBridge).starting_arr) /
            ((arrRollforward subs ts).getD (i + 1) defBridge).starting_arr *
            100))) ∧
    ((arrRollforward subs ts).getD 0 defBridge).growth_rate = FVal.nan := by
  rw [arrRollforward] at hi ⊢
  rw [length_rollforwardOf] at hi
  have h0 : 0 < (monthlySummary subs ts).length := Nat.lt_of_le_of_lt
    (Nat.zero_le _) hi
  constructor
  · intro hne
    rw [rollforwardOf_getD _ _ hi] at hne ⊢
    simp only [Nat.add_sub_cancel, if_neg (Nat.succ_ne_zero i)] at hne ⊢
    rw [growthRates, getD_map_range _ _ _ _ hi]
    simp only [Nat.add_sub_cancel, if_neg (Nat.succ_ne_zero i)]
    rw [FVal.sub, FVal.div, if_neg hne]
    rfl
  · rw [rollforwardOf_getD _ _ h0]
    show (growthRates (monthlySummary subs ts)).getD 0 .nan = FVal.nan
    rw [growthRates, getD_map_range _ _ _ _ h0]
    simp [FVal.sub, FVal.div, FVal.mul100, round2F]

/-- Claim C6 counterexample: on the first bridge record (starting ARR 0)
the stored growth rate is the missing value NaN, not zero together with
an explicit undefined-baseline flag. -/
theorem claim_C6_counterexample :
    ((arrRollforward [] zeroAmtTs).getD 0 defBridge).growth_rate =
      FVal.nan ∧
    ((arrRollforward [] zeroAmtTs).getD 0 defBridge).starting_arr = 0 := by
  have h0 : 0 < (monthlySummary [] zeroAmtTs).length := by decide
  constructor
  · rw [arrRollforward, rollforwardOf_getD _ _ h0]
    show (growthRates (monthlySummary [] zeroAmtTs)).getD 0 .nan = FVal.nan
    rw [growthRates, getD_map_range _ _ _ _ h0]
    simp [FVal.sub, FVal.div, FVal.mul100, round2F]
  · rw [arrRollforward, rollforwardOf_getD _ _ h0]
    simp

/-- Claim C6 witness: on the demo chain the second record's growth rate
equals the rounded relative snapshot change, and the first record's
growth rate is NaN. -/
theorem claim_C6_witness :
    ((arrRollforward demoSubs demoTs).getD 1 defBridge).growth_rate =
      FVal.num (rnd2
        ((((arrRollforward demoSubs demoTs).getD 1 defBridge).ending_arr -
          ((arrRollforward demoSubs demoTs).getD 1 defBridge).starting_arr) /
          ((arrRollforward demoSubs demoTs).getD 1 defBridge).starting_arr *
          100)) ∧
    ((arrRollforward demoSubs demoTs).getD 0 defBridge).growth_rate =
      FVal.nan := by
  have h := claim_C6_amended demoSubs demoTs 0 (by decide)
  refine ⟨h.1 ?_, h.2⟩
  have m1 : monthEnd 2024 1 = ⟨2024, 1, 31⟩ := by decide
  rw [arrRollforward, rollforwardOf_getD _ _ (by decide)]
  simp only [Nat.add_sub_cancel, if_neg (Nat.succ_ne_zero 0)]
  rw [monthlySummary_getD demoSubs demoTs 0 (by decide)]
  have am : allMonths demoTs = [(2024, 1), (2024, 2)] := by
    norm_num [allMonths, demoTs, ymOf, sortMonths, insertMonth, mLe,
      List.dedup]
  rw [am]
  norm_num +decide [msRow, m1, pointInTimeArr, activeSubs, isActiveAt,
    dle, dlt, demoSubs]

theorem insertMonth_perm (m : ℕ × ℕ) (l : List (ℕ × ℕ)) :
    (insertMonth m l).Perm (m :: l) := by
  induction l with
  | nil => rfl
  | cons x xs ih =>
    rw [insertMonth]
    by_cases h : mLe m x = true
    · rw [if_pos h]
    · rw [if_neg h]
      exact (ih.cons x).trans (List.Perm.swap m x xs)

theorem sortMonths_perm (l : List (ℕ × ℕ)) : (sortMonths l).Perm l := by
  induction l with
  | nil => rfl
  | cons x xs ih =>
    rw [sortMonths]
    exact (insertMonth_perm x (sortMonths xs)).trans (ih.cons x)

theorem allMonths_nodup (ts : List Transaction) : (allMonths ts).Nodup :=
  (sortMonths_perm ((ts.map ymOf).dedup)).nodup_iff.mpr
    (List.nodup_dedup (ts.map ymOf))

theorem mem_allMonths (ts : List Transaction) (m : ℕ × ℕ) :
    m ∈ allMonths ts ↔ m ∈ ts.map ymOf :=
  ((sortMonths_perm ((ts.map ymOf).dedup)).mem_iff).trans
    (List.mem_dedup)

theorem monthlySummary_map_month (subs : List Subscription)
    (ts : List Transaction) :
    (monthlySummary subs ts).map MSRow.month = allMonths ts := by
  rw [monthlySummary, List.map_map]
  have : (MSRow.month ∘ msRow subs ts) = id := by
    funext m
    rfl
  rw [this, List.map_id]

theorem typeSum_eq_zero (ts : List Transaction) (m : ℕ × ℕ) (c : TType)
    (h : ∀ t ∈ ts, ymOf t = m → t.ttype ≠ c) : typeSum ts m c = 0 := by
  rw [typeSum]
  have hnil : (monthTxns ts m).filter (fun t => t.ttype == c) = [] := by
    rw [List.filter_eq_nil_iff]
    intro t ht
    rw [monthTxns, List.mem_filter] at ht
    have hym : ymOf t = m := by simpa using ht.2
    simpa using h t ht.1 hym
  rw [hnil]
  rfl

/-- Claim C7 (amended): the monthly summary has exactly one row per
distinct calendar month occurring in the ledger — a calendar month with
no transactions at all is absent even between the earliest and latest
dates — while within an emitted month a transaction type with no
transactions yields a component sum of zero, not an absent entry. -/
theorem claim_C7_amended (subs : List Subscription) (ts : List Transaction) :
    ((monthlySummary subs ts).map MSRow.month).Nodup ∧
    (∀ m, m ∈ (monthlySummary subs ts).map MSRow.month ↔ m ∈ ts.map ymOf) ∧
    (∀ r ∈ monthlySummary subs ts,
      ((∀ t ∈ ts, ymOf t = r.month → t.ttype ≠ .new) → r.new_arr = 0) ∧
      ((∀ t ∈ ts, ymOf t = r.month → t.ttype ≠ .expansion) →
        r.expansion_arr = 0) ∧
      ((∀ t ∈ ts, ymOf t = r.month → t.ttype ≠ .contraction) →
        r.contraction_arr = 0) ∧
      ((∀ t ∈ ts, ymOf t = r.month → t.ttype ≠ .churn) →
        r.churned_arr = 0)) := by
  refine ⟨?_, ?_, ?_⟩
  · rw [monthlySummary_map_month]
    exact allMonths_nodup ts
  · intro m
    rw [monthlySummary_map_month]
    exact mem_allMonths ts m
  · intro r hr
    rw [monthlySummary, List.mem_map] at hr
    obtain ⟨m, hm, rfl⟩ := hr
    have hmonth : (msRow subs ts m).month = m := rfl
    rw [hmonth]
    exact ⟨fun h => typeSum_eq_zero ts m .new h,
      fun h => typeSum_eq_zero ts m .expansion h,
      fun h => typeSum_eq_zero ts m .contraction h,
      fun h => typeSum_eq_zero ts m .churn h⟩

/-- Claim C7 counterexample: a ledger with transactions in January and
March 2024 only produces a summary with two rows and no entry for
February 2024, although February lies between the earliest and latest
transaction dates. -/
theorem claim_C7_counterexample :
    (monthlySummary [] gapTs).length = 2 ∧
    (2024, 2) ∉ (monthlySummary [] gapTs).map MSRow.month ∧
    (2024, 1) ∈ (monthlySummary [] gapTs).map MSRow.month ∧
    (2024, 3) ∈ (monthlySummary [] gapTs).map MSRow.month := by
  have hm : (monthlySummary [] gapTs).map MSRow.month = allMonths gapTs :=
    monthlySummary_map_month [] gapTs
  have ha : allMonths gapTs = [(2024, 1), (2024, 3)] := by
    norm_num [allMonths, gapTs, ymOf, sortMonths, insertMonth, mLe,
      List.dedup]
  constructor
  · have := congrArg List.length hm
    rw [List.length_map] at this
    rw [this, ha]
    rfl
  · rw [hm, ha]
    decide

/-- Claim C7 witness: the one-transaction ledger's summary contains its
month, and the churn component of that month is zero because the ledger
holds no churn transaction. -/
theorem claim_C7_witness :
    (2024, 1) ∈ (monthlySummary [] oneTxn).map MSRow.month ∧
    ((monthlySummary [] oneTxn).getD 0 defRow).churned_arr = 0 := by
  have h := claim_C7_amended [] oneTxn
  constructor
  · exact (h.2.1 (2024, 1)).mpr (by decide)
  · have hr : (monthlySummary [] oneTxn).getD 0 defRow ∈
        monthlySummary [] oneTxn := by
      rw [List.getD_eq_getElem _ _ (by decide)]
      exact List.getElem_mem _
    refine (h.2.2 _ hr).2.2.2 ?_
    intro t ht hym
    rw [oneTxn, List.mem_singleton] at ht
    subst ht
    decide

/-- Claim C8 (amended): a subscription with `end_date <= start_date` is
never counted active at any reference date (so it is excluded from active
sets by the activity predicate alone), and a subscription with
non-positive `arr_amount` receives no segment label; but no per-record
finding is produced anywhere, and a negative-ARR subscription is NOT
excluded from the monthly aggregation — if active it contributes its
negative amount to point-in-time ARR and to the customer count. -/
theorem claim_C8_amended :
    (∀ (sub : Subscription) (e : Date), sub.end_date = some e →
      dle e sub.start_date = true → ∀ d, isActiveAt sub d = false) ∧
    (∀ a : ℚ, a ≤ 0 → segmentOf a = none) := by
  constructor
  · intro sub e he hle d
    rw [isActiveAt, he]
    show (dle sub.start_date d && dlt d e) = false
    by_cases hs : dle sub.start_date d = true
    · have hnot : dlt d e = false := by
        rw [dle] at hle hs
        rw [dlt]
        simp only [decide_eq_true_eq] at hle hs
        simp only [decide_eq_false_iff_not]
        omega
      rw [hnot]
      simp
    · rw [Bool.not_eq_true] at hs
      rw [hs]
      simp
  · intro a ha
    rw [segmentOf, if_neg (by rintro ⟨h1, h2⟩; linarith),
      if_neg (by rintro ⟨h1, h2⟩; linarith),
      if_neg (by rintro ⟨h1, h2⟩; linarith),
      if_neg (by intro h1; linarith)]

/-- Claim C8 counterexample: a subscription with `arr_amount = -100` is
included in the month's aggregation — the monthly summary's point-in-time
ARR is −100 and the active customer count is 1, and no finding or record
exclusion occurs. -/
theorem claim_C8_counterexample :
    ((monthlySummary negArrSubs zeroAmtTs).getD 0 defRow).current_arr =
      -100 ∧
    ((monthlySummary negArrSubs zeroAmtTs).getD 0 defRow).active_customers
      = 1 ∧
    (negArrSubs.getD 0 ⟨⟨0, 0, 0⟩, none, 0⟩).arr_amount < 0 := by
  have m1 : monthEnd 2024 1 = ⟨2024, 1, 31⟩ := by decide
  have am : allMonths zeroAmtTs = [(2024, 1)] := by
    norm_num [allMonths, zeroAmtTs, ymOf, sortMonths, insertMonth, mLe,
      List.dedup]
  have hs : (monthlySummary negArrSubs zeroAmtTs).getD 0 defRow =
      msRow negArrSubs zeroAmtTs (2024, 1) := by
    rw [monthlySummary_getD negArrSubs zeroAmtTs 0 (by rw [am]; decide), am]
    rfl
  rw [hs]
  norm_num +decide [msRow, m1, typeSum, monthTxns, annualized, activeSubs,
    pointInTimeArr, isActiveAt, dle, dlt, ymOf, negArrSubs, zeroAmtTs,
    negContractionTs]

/-- Claim C8 witness: a subscription ending before it starts is inactive
at a sample date, and a negative ARR amount receives no segment label. -/
theorem claim_C8_witness :
    isActiveAt ⟨⟨2024, 5, 1⟩, some ⟨2024, 4, 1⟩, 100⟩ ⟨2024, 6, 30⟩ =
      false ∧
    segmentOf (-5) = none := by
  have h := claim_C8_amended
  exact ⟨h.1 ⟨⟨2024, 5, 1⟩, some ⟨2024, 4, 1⟩, 100⟩ ⟨2024, 4, 1⟩ rfl
    (by decide) ⟨2024, 6, 30⟩, h.2 (-5) (by norm_num)⟩

/-- Claim C9: a summary month with zero active subscriptions reports
`arr_per_customer` as 0 (the guarded division of step 4) instead of
failing on division by zero. -/
theorem claim_C9 (subs : List Subscription) (ts : List Transaction)
    (r : MSRow) (hr : r ∈ monthlySummary subs ts)
    (h0 : r.active_customers = 0) : r.arr_per_customer = 0 := by
  rw [monthlySummary, List.mem_map] at hr
  obtain ⟨m, hm, rfl⟩ := hr
  have hlen : (activeSubs subs (monthEnd m.1 m.2)).length = 0 := h0
  show (if 0 < (activeSubs subs (monthEnd m.1 m.2)).length then _ else 0) = 0
  rw [hlen]
  simp

/-- Claim C9 witness: with an empty subscription set the only summary
month has zero active customers and reports `arr_per_customer = 0`. -/
theorem claim_C9_witness :
    ((monthlySummary [] oneTxn).getD 0 defRow).arr_per_customer = 0 := by
  have hr : (monthlySummary [] oneTxn).getD 0 defRow ∈
      monthlySummary [] oneTxn := by
    rw [List.getD_eq_getElem _ _ (by decide)]
    exact List.getElem_mem _
  exact claim_C9 [] oneTxn _ hr (by decide)

/-- Claim C10: segment assignment uses left-open right-closed intervals
(0,600] → SMB, (600,2400] → Mid-Market, (2400,6000] → Enterprise,
(6000,∞) → Strategic; each boundary value falls in the lower segment; an
`arr_amount` of exactly 0 receives no label and contributes to no
segment's ARR total or customer count. -/
theorem claim_C10 :
    (∀ a : ℚ, 0 < a → a ≤ 600 → segmentOf a = some .SMB) ∧
    (∀ a : ℚ, 600 < a → a ≤ 2400 → segmentOf a = some .MidMarket) ∧
    (∀ a : ℚ, 2400 < a → a ≤ 6000 → segmentOf a = some .Enterprise) ∧
    (∀ a : ℚ, 6000 < a → segmentOf a = some .Strategic) ∧
    segmentOf 600 = some .SMB ∧
    segmentOf 2400 = some .MidMarket ∧
    segmentOf 6000 = some .Enterprise ∧
    segmentOf 0 = none ∧
    (∀ (subs : List Subscription) (asOf : Date) (s : Segment)
      (sub : Subscription), sub.arr_amount = 0 →
      segArr (sub :: subs) asOf s = segArr subs asOf s ∧
      segCount (sub :: subs) asOf s = segCount subs asOf s) := by
  have hseg0 : segmentOf 0 = none := by
    rw [segmentOf, if_neg (by rintro ⟨h1, h2⟩; linarith),
      if_neg (by rintro ⟨h1, h2⟩; linarith),
      if_neg (by rintro ⟨h1, h2⟩; linarith),
      if_neg (by intro h1; linarith)]
  refine ⟨?_, ?_, ?_, ?_, ?_, ?_, ?_, hseg0, ?_⟩
  · intro a h1 h2
    rw [segmentOf, if_pos ⟨h1, h2⟩]
  · intro a h1 h2
    rw [segmentOf, if_neg (by rintro ⟨g1, g2⟩; linarith),
      if_pos ⟨h1, h2⟩]
  · intro a h1 h2
    rw [segmentOf, if_neg (by rintro ⟨g1, g2⟩; linarith),
      if_neg (by rintro ⟨g1, g2⟩; linarith), if_pos ⟨h1, h2⟩]
  · intro a h1
    rw [segmentOf, if_neg (by rintro ⟨g1, g2⟩; linarith),
      if_neg (by rintro ⟨g1, g2⟩; linarith),
      if_neg (by rintro ⟨g1, g2⟩; linarith), if_pos h1]
  · rw [segmentOf, if_pos (by norm_num)]
  · rw [segmentOf, if_neg (by norm_num), if_pos (by norm_num)]
  · rw [segmentOf, if_neg (by norm_num), if_neg (by norm_num),
      if_pos (by norm_num)]
  · intro subs asOf s sub hz
    have hfalse : (isActiveAt sub asOf &&
        (segmentOf sub.arr_amount == some s)) = false := by
      rw [hz, hseg0]
      simp
    constructor
    · rw [segArr, segArr, List.filter_cons_of_neg (by simp [hfalse])]
    · rw [segCount, segCount, List.filter_cons_of_neg (by simp [hfalse])]

/-- Claim C10 witness: sample values in each bin, including boundary 600,
and the exclusion of a zero-ARR subscription from a segment total. -/
theorem claim_C10_witness :
    segmentOf 300 = some .SMB ∧
    segmentOf 600 = some .SMB ∧
    segmentOf 2400 = some .MidMarket ∧
    segmentOf 4000 = some .Enterprise ∧
    segmentOf 7000 = some .Strategic ∧
    segArr [⟨⟨2024, 1, 1⟩, none, 0⟩] ⟨2024, 1, 31⟩ .SMB =
      segArr [] ⟨2024, 1, 31⟩ .SMB := by
  refine ⟨claim_C10.1 300 (by norm_num) (by norm_num),
    claim_C10.2.2.2.2.1,
    claim_C10.2.2.2.2.2.1,
    claim_C10.2.2.1 4000 (by norm_num) (by norm_num),
    claim_C10.2.2.2.1 7000 (by norm_num),
    (claim_C10.2.2.2.2.2.2.2.2 [] ⟨2024, 1, 31⟩ .SMB
      ⟨⟨2024, 1, 1⟩, none, 0⟩ rfl).1⟩

end ARR
